import Mathlib

/-!
Shallow embedding of the TMDB movie-analysis Spark pipeline
(src/cleaning/cleaner.py, src/cleaning/udfs.py, src/analytics/kpi_calculator.py,
src/analytics/aggregations.py, src/analytics/filters.py).

A Spark DataFrame is modelled as a list of rows over a dynamic schema:
each row is an association list from column name to value, and the frame
carries its column list.  Values carry the shapes that actually occur in
the raw TMDB documents and in the cleaned frames: nulls, longs, doubles
(as rationals), strings, dates, and the specific nested shapes the UDFs
in src/cleaning/udfs.py destructure (arrays of name-structs, the
belongs_to_collection struct, the keywords wrapper, the credits struct).
Python attribute access on a value of the wrong shape raises
AttributeError, so the UDFs are embedded as Except-valued functions.
-/

/-- A dynamic cell value.  `nameArr` is an array of structs each carrying a
nullable `name` field (genres, production_companies, production_countries,
spoken_languages).  `nameStrct` is a struct with a nullable `name` field
(belongs_to_collection).  `kwStrct` is the keywords wrapper struct whose
`keywords` field is a nullable array of name-structs.  `credits` is the
credits struct with nullable `cast` (array of name-structs) and nullable
`crew` (array of structs with nullable `name` and `job` fields, given as
(name, job) pairs). -/
inductive CVal where
  | null
  | int (n : Int)
  | real (q : Rat)
  | str (s : String)
  | date (y : Int) (m d : Nat)
  | nameArr (xs : List (Option String))
  | nameStrct (nm : Option String)
  | kwStrct (kws : Option (List (Option String)))
  | credits (cast : Option (List (Option String)))
      (crew : Option (List (Option String × Option String)))
deriving DecidableEq, Repr

/-- A row of a DataFrame: association list from column name to value. -/
abbrev Row := List (String × CVal)

/-- A Spark DataFrame: its column list and its rows (in frame order). -/
structure DF where
  cols : List String
  rows : List Row
deriving DecidableEq, Repr

/-- Reading a column from a row; a missing column reads as null. -/
def getVal (r : Row) (c : String) : CVal :=
  match r.find? (fun p => p.1 = c) with
  | some p => p.2
  | none => CVal.null

/-- `withColumn` at row level: replace the value in place when the column
exists, append the new column at the end otherwise (Spark keeps the column
position on replacement and appends new columns). -/
def setVal (r : Row) (c : String) (v : CVal) : Row :=
  if r.any (fun p => p.1 = c) then
    r.map (fun p => if p.1 = c then (c, v) else p)
  else
    r ++ [(c, v)]

/-- Remove a column from a row (Spark `drop`). -/
def removeKey (r : Row) (c : String) : Row :=
  r.filter (fun p => p.1 ≠ c)

/-- Remove several columns from a row. -/
def removeKeys (r : Row) (cs : List String) : Row :=
  r.filter (fun p => p.1 ∉ cs)

/-- `withColumn` at schema level: a new column name is appended, an
existing one keeps its position. -/
def addCol (cols : List String) (c : String) : List String :=
  if c ∈ cols then cols else cols ++ [c]

/-- Project a row onto a column list (Spark `select`): absent columns read
as null in the projection. -/
def projectRow (cs : List String) (r : Row) : Row :=
  cs.map (fun c => (c, getVal r c))

/-- Spark `withColumn` over a whole frame: the expression is evaluated on
each row. -/
def DF.withColumn (df : DF) (c : String) (f : Row → CVal) : DF :=
  { cols := addCol df.cols c, rows := df.rows.map (fun r => setVal r c (f r)) }

/-- Spark `filter` with a Boolean predicate already reduced to Lean `Bool`
(the tri-valued conditions used by the source are reduced where they are
modelled; a row is kept only when the condition is definitely true). -/
def DF.filterRows (df : DF) (p : Row → Bool) : DF :=
  { cols := df.cols, rows := df.rows.filter p }

/-- Spark `drop` of one column. -/
def DF.dropCol (df : DF) (c : String) : DF :=
  { cols := df.cols.filter (fun c' => c' ≠ c),
    rows := df.rows.map (fun r => removeKey r c) }

/-- Spark `select` of a column list. -/
def DF.selectCols (df : DF) (cs : List String) : DF :=
  { cols := cs, rows := df.rows.map (projectRow cs) }

/-! ## Tri-valued (SQL/Kleene) logic and numeric views -/

/-- Kleene conjunction of nullable Booleans (Spark `&` on columns). -/
def and3 : Option Bool → Option Bool → Option Bool
  | some false, _ => some false
  | some true, b => b
  | none, some false => some false
  | none, _ => none

/-- Kleene disjunction of nullable Booleans (Spark `|` on columns). -/
def or3 : Option Bool → Option Bool → Option Bool
  | some true, _ => some true
  | some false, b => b
  | none, some true => some true
  | none, _ => none

/-- Numeric view of a value: Spark arithmetic sees longs and doubles and
propagates null for everything else. -/
def toRat : CVal → Option Rat
  | CVal.int n => some (n : Rat)
  | CVal.real q => some q
  | _ => none

/-- Null-propagating subtraction of two columns (Spark `-`). -/
def sub3 (a b : CVal) : CVal :=
  match toRat a, toRat b with
  | some x, some y => CVal.real (x - y)
  | _, _ => CVal.null

/-- The ROI expression shared verbatim by `rank_movies`
(kpi_calculator.py lines 80-86) and `compare_franchise_vs_standalone`
(aggregations.py lines 60-66):
`F.when(budget_musd > 0, (revenue_musd - budget_musd)/budget_musd*100)
 .otherwise(None)`.
A null budget makes the `when` condition null, which falls through to the
null `otherwise` branch; a null revenue makes the arithmetic null. -/
def roiOf (b r : CVal) : CVal :=
  match toRat b with
  | some bq =>
      if 0 < bq then
        match toRat r with
        | some rq => CVal.real ((rq - bq) / bq * 100)
        | none => CVal.null
      else CVal.null
  | none => CVal.null

/-- `needle` is a leading segment of `hay` (on character lists). -/
def listStarts : List Char → List Char → Bool
  | [], _ => true
  | _ :: _, [] => false
  | a :: as, b :: bs => a = b && listStarts as bs

/-- `needle` occurs contiguously somewhere in `hay`. -/
def listHasSegment (needle : List Char) : List Char → Bool
  | [] => listStarts needle []
  | b :: bs => listStarts needle (b :: bs) || listHasSegment needle bs

/-- Java `String.contains`, the semantics of Spark `Column.contains` on a
non-null string. -/
def strContainsB (s tok : String) : Bool :=
  listHasSegment tok.toList s.toList

/-- Spark `Column.contains` on a nullable string column: null input gives
a null condition; non-string input is treated as null (it cannot occur on
a string-typed column). -/
def containsTok (v : CVal) (tok : String) : Option Bool :=
  match v with
  | CVal.str s => some (strContainsB s tok)
  | _ => none

/-- Lexicographic comparison of character lists by code point. -/
def charListLe : List Char → List Char → Bool
  | [], _ => true
  | _ :: _, [] => false
  | a :: as, b :: bs => if a = b then charListLe as bs else decide (a < b)

/-- String comparison used by `orderBy` on string columns and by Python
`sorted` (code-point lexicographic order, as in Spark/Java and Python for
the ASCII data at hand). -/
def strLeB (a b : String) : Bool := charListLe a.toList b.toList

/-- Split a character list on a separator character (Python `str.split`:
an empty input yields one empty field). -/
def splitOnChar (c : Char) : List Char → List (List Char)
  | [] => [[]]
  | ch :: rest =>
      match splitOnChar c rest with
      | [] => [[]]
      | g :: gs => if ch = c then [] :: g :: gs else (ch :: g) :: gs

/-- Split a string on a separator character. -/
def strSplitOn (s : String) (c : Char) : List String :=
  (splitOnChar c s.toList).map String.mk

/-- Parse an unsigned decimal numeral. -/
def parseNatChars (cs : List Char) : Option Nat :=
  if cs ≠ [] ∧ cs.all (fun c => c.isDigit) then
    some (cs.foldl (fun n c => n * 10 + (c.toNat - 48)) 0)
  else none

/-- Parse an optionally-signed decimal numeral (the successful cases of a
Spark string-to-number cast; failures become null at the call sites). -/
def parseIntStr (s : String) : Option Int :=
  match s.toList with
  | '-' :: rest => (parseNatChars rest).map (fun n => -(n : Int))
  | cs => (parseNatChars cs).map (fun n => (n : Int))

/-- Value comparison used by `orderBy`: numeric columns compare as
rationals, string columns lexicographically, date columns by (y, m, d);
anything else is left in place (a sorted column of a Spark frame is
homogeneously typed, so the fallback never decides a real comparison). -/
def valLeB (a b : CVal) : Bool :=
  match toRat a, toRat b with
  | some x, some y => decide (x ≤ y)
  | _, _ =>
    match a, b with
    | CVal.str s1, CVal.str s2 => strLeB s1 s2
    | CVal.date y1 m1 d1, CVal.date y2 m2 d2 =>
        decide ((y1, m1, d1) ≤ (y2, m2, d2))
    | _, _ => true

/-- Stable insertion into a sorted list. -/
def insertLe {α : Type} (le : α → α → Bool) (x : α) : List α → List α
  | [] => [x]
  | y :: ys => if le x y then x :: y :: ys else y :: insertLe le x ys

/-- Stable insertion sort modelling the deterministic (single-partition)
reading of Spark `orderBy`. -/
def sortLe {α : Type} (le : α → α → Bool) : List α → List α
  | [] => []
  | x :: xs => insertLe le x (sortLe le xs)

/-! ## UDFs from src/cleaning/udfs.py

Each Python UDF can raise (AttributeError / TypeError) when fed a value of
an unexpected shape, so they are embedded as `Except Unit CVal`. -/

/-- Gather the non-null names of an array of name-structs
(`[item.name for item in array_data if item.name is not None]`). -/
def gatherNames (xs : List (Option String)) : List String :=
  xs.filterMap id

/-- `extract_collection_name`: `collection_struct.name` when the struct is
not None.  Attribute access `.name` on any other shape raises. -/
def extract_collection_name : CVal → Except Unit CVal
  | CVal.null => Except.ok CVal.null
  | CVal.nameStrct nm =>
      Except.ok (match nm with | some s => CVal.str s | none => CVal.null)
  | _ => Except.error ()

/-- `extract_names_from_array`: on a non-empty array, join the non-null
names with `|` (null when none survive); on None or an empty value return
null.  Iterating a non-empty flat string yields characters, and `.name`
on a character raises; `len` of a numeric value raises. -/
def extract_names_from_array : CVal → Except Unit CVal
  | CVal.null => Except.ok CVal.null
  | CVal.nameArr xs =>
      if xs.length > 0 then
        Except.ok (match gatherNames xs with
          | [] => CVal.null
          | ns => CVal.str (String.intercalate "|" ns))
      else Except.ok CVal.null
  | CVal.str s => if s.length > 0 then Except.error () else Except.ok CVal.null
  | _ => Except.error ()

/-- `extract_keywords_from_struct`: read `keywords_struct.keywords` and
join the non-null names.  `.keywords` on any non-struct, including a flat
string, raises. -/
def extract_keywords_from_struct : CVal → Except Unit CVal
  | CVal.null => Except.ok CVal.null
  | CVal.kwStrct none => Except.ok CVal.null
  | CVal.kwStrct (some ks) =>
      Except.ok (match gatherNames ks with
        | [] => CVal.null
        | ns => CVal.str (String.intercalate "|" ns))
  | _ => Except.error ()

/-- `extract_top_cast`: first five cast names joined with `|`. -/
def extract_top_cast : CVal → Except Unit CVal
  | CVal.null => Except.ok CVal.null
  | CVal.credits none _ => Except.ok CVal.null
  | CVal.credits (some xs) _ =>
      Except.ok (match gatherNames (xs.take 5) with
        | [] => CVal.null
        | ns => CVal.str (String.intercalate "|" ns))
  | _ => Except.error ()

/-- `get_cast_size`: total cast count, 0 when absent. -/
def get_cast_size : CVal → Except Unit CVal
  | CVal.null => Except.ok (CVal.int 0)
  | CVal.credits none _ => Except.ok (CVal.int 0)
  | CVal.credits (some xs) _ => Except.ok (CVal.int xs.length)
  | _ => Except.error ()

/-- `extract_director`: name of the first crew entry whose job equals
"Director", null when there is none or the crew is absent. -/
def extract_director : CVal → Except Unit CVal
  | CVal.null => Except.ok CVal.null
  | CVal.credits _ none => Except.ok CVal.null
  | CVal.credits _ (some ys) =>
      Except.ok (match ys.find? (fun m => m.2 = some "Director") with
        | some m => (match m.1 with | some s => CVal.str s | none => CVal.null)
        | none => CVal.null)
  | _ => Except.error ()

/-- `get_crew_size`: total crew count, 0 when absent. -/
def get_crew_size : CVal → Except Unit CVal
  | CVal.null => Except.ok (CVal.int 0)
  | CVal.credits _ none => Except.ok (CVal.int 0)
  | CVal.credits _ (some ys) => Except.ok (CVal.int ys.length)
  | _ => Except.error ()

/-- `sort_pipe_separated`: split on `|`, sort alphabetically, re-join;
the `isinstance(text_value, str)` guard makes every non-string (None
included) map to None without raising. -/
def sort_pipe_separated : CVal → CVal
  | CVal.str s =>
      CVal.str (String.intercalate "|" (sortLe strLeB (strSplitOn s '|')))
  | _ => CVal.null

/-! ## Cleaning stages from src/cleaning/cleaner.py -/

/-- The fixed drop list of `drop_irrelevant_columns`. -/
def colsToDrop : List String :=
  ["adult", "imdb_id", "original_title", "video", "homepage",
   "backdrop_path", "poster_path", "origin_country"]

/-- `drop_irrelevant_columns`: drop the fixed columns when present. -/
def drop_irrelevant_columns (df : DF) : DF :=
  { cols := df.cols.filter (fun c => c ∉ colsToDrop),
    rows := df.rows.map (fun r => removeKeys r colsToDrop) }

/-- One `withColumn` application of a fallible UDF at row level. -/
def applyUdf (cols : List String) (src dst : String)
    (u : CVal → Except Unit CVal) (r : Row) : Except Unit Row :=
  if src ∈ cols then
    match u (getVal r src) with
    | Except.ok v => Except.ok (setVal r dst v)
    | Except.error e => Except.error e
  else Except.ok r

/-- `flatten_nested_columns` at row level, in source order:
belongs_to_collection, genres, production_countries, production_companies,
spoken_languages, keywords. -/
def flattenRow (cols : List String) (r : Row) : Except Unit Row := do
  let r ← applyUdf cols "belongs_to_collection" "collection_name" extract_collection_name r
  let r ← applyUdf cols "genres" "genres" extract_names_from_array r
  let r ← applyUdf cols "production_countries" "production_countries" extract_names_from_array r
  let r ← applyUdf cols "production_companies" "production_companies" extract_names_from_array r
  let r ← applyUdf cols "spoken_languages" "spoken_languages" extract_names_from_array r
  applyUdf cols "keywords" "keywords" extract_keywords_from_struct r

/-- Evaluate the flatten stage over all rows; any row-level UDF failure
surfaces when the frame is evaluated. -/
def flattenRows (cols : List String) : List Row → Except Unit (List Row)
  | [] => Except.ok []
  | r :: rs => do
      let r' ← flattenRow cols r
      let rs' ← flattenRows cols rs
      Except.ok (r' :: rs')

/-- `flatten_nested_columns`: the only schema change is the new
`collection_name` column when `belongs_to_collection` is present. -/
def flatten_nested_columns (df : DF) : Except Unit DF := do
  let rows ← flattenRows df.cols df.rows
  Except.ok
    { cols := if "belongs_to_collection" ∈ df.cols then
                addCol df.cols "collection_name"
              else df.cols,
      rows := rows }

/-- Truncation toward zero, the behaviour of a Spark double-to-long cast. -/
def ratTrunc (q : Rat) : Int := if 0 ≤ q then q.floor else q.ceil

/-- Spark `cast('long')`: longs unchanged, doubles truncated, parseable
strings parsed, everything else null. -/
def castLong : CVal → CVal
  | CVal.int n => CVal.int n
  | CVal.real q => CVal.int (ratTrunc q)
  | CVal.str s => (match parseIntStr s with | some n => CVal.int n | none => CVal.null)
  | _ => CVal.null

/-- Spark `cast('double')`: longs widened, doubles unchanged, parseable
integer strings parsed, everything else null. -/
def castDouble : CVal → CVal
  | CVal.int n => CVal.real (n : Rat)
  | CVal.real q => CVal.real q
  | CVal.str s => (match parseIntStr s with | some n => CVal.real (n : Rat) | none => CVal.null)
  | _ => CVal.null

/-- Spark `to_date` on an ISO `yyyy-MM-dd` string; dates pass through,
anything unparseable is null. -/
def toDateVal : CVal → CVal
  | CVal.date y m d => CVal.date y m d
  | CVal.str s =>
      (match strSplitOn s '-' with
       | [ys, ms, ds] =>
           (match parseNatChars ys.toList, parseNatChars ms.toList,
              parseNatChars ds.toList with
            | some y, some m, some d => CVal.date (y : Int) m d
            | _, _, _ => CVal.null)
       | _ => CVal.null)
  | _ => CVal.null

/-- `F.when(col == 0, None).otherwise(col)` for budget/revenue/runtime. -/
def zeroToNull (v : CVal) : CVal :=
  if v = CVal.int 0 ∨ v = CVal.real 0 then CVal.null else v

/-- Raw monetary value scaled to millions (`F.col(c) / 1_000_000`). -/
def musdOf (v : CVal) : CVal :=
  match toRat v with
  | some q => CVal.real (q / 1000000)
  | none => CVal.null

/-- The placeholder texts normalized to null in overview/tagline. -/
def placeholderTexts : List CVal :=
  [CVal.str "No Data", CVal.str "No Overview", CVal.str "n/a", CVal.str "nan"]

/-- `F.when(col.isin(placeholders), None).otherwise(col)`. -/
def placeholderToNull (v : CVal) : CVal :=
  if v ∈ placeholderTexts then CVal.null else v

/-- The numeric column/cast table of `clean_datatypes` (Python dict, in
insertion order). -/
def numericCasts : List (String × (CVal → CVal)) :=
  [("budget", castLong), ("id", castLong), ("popularity", castDouble),
   ("revenue", castLong), ("vote_count", castLong),
   ("vote_average", castDouble), ("runtime", castLong)]

/-- One guarded single-column value rewrite (`withColumn` when the column
is present). -/
def mapColIfPresent (cols : List String) (c : String) (f : CVal → CVal)
    (r : Row) : Row :=
  if c ∈ cols then setVal r c (f (getVal r c)) else r

/-- `clean_datatypes` at row level, in source order: numeric casts, date
parse, zero-to-null, the two `*_musd` columns, placeholder cleanup. -/
def cleanRow (cols : List String) (r : Row) : Row :=
  let r := numericCasts.foldl (fun r p => mapColIfPresent cols p.1 p.2 r) r
  let r := mapColIfPresent cols "release_date" toDateVal r
  let r := ["budget", "revenue", "runtime"].foldl
    (fun r c => mapColIfPresent cols c zeroToNull r) r
  let r := if "budget" ∈ cols then
             setVal r "budget_musd" (musdOf (getVal r "budget")) else r
  let r := if "revenue" ∈ cols then
             setVal r "revenue_musd" (musdOf (getVal r "revenue")) else r
  ["overview", "tagline"].foldl
    (fun r c => mapColIfPresent cols c placeholderToNull r) r

/-- `clean_datatypes` over the frame; the schema gains `budget_musd` /
`revenue_musd` when the raw columns are present. -/
def clean_datatypes (df : DF) : DF :=
  let cols1 := if "budget" ∈ df.cols then addCol df.cols "budget_musd" else df.cols
  let cols2 := if "revenue" ∈ df.cols then addCol cols1 "revenue_musd" else cols1
  { cols := cols2, rows := df.rows.map (cleanRow df.cols) }

/-- `dropDuplicates(['id'])` under the deterministic single-partition
reading fixed by the spec (first occurrence in frame order wins; Spark
groups null keys together, so at most one null-id row survives). -/
def dedupById : List Row → List CVal → List Row
  | [], _ => []
  | r :: rs, seen =>
      if getVal r "id" ∈ seen then dedupById rs seen
      else r :: dedupById rs (getVal r "id" :: seen)

/-- `filter_data`: dedup by id, require non-null id and title, and when a
status column exists keep only `status == 'Released'` and drop the
column.  (The row counting around the body only logs.) -/
def filter_data (df : DF) : DF :=
  let d1 : DF := { cols := df.cols, rows := dedupById df.rows [] }
  let d2 := d1.filterRows
    (fun r => getVal r "id" ≠ CVal.null ∧ getVal r "title" ≠ CVal.null)
  if "status" ∈ d2.cols then
    (d2.filterRows (fun r => getVal r "status" = CVal.str "Released")).dropCol "status"
  else d2

/-- `F.year` on a date column (null propagates). -/
def yearOf : CVal → CVal
  | CVal.date y _ _ => CVal.int y
  | _ => CVal.null

/-- `F.when(col == 'nan', None).otherwise(col)` for the text columns of
`engineer_features`. -/
def nanToNull (v : CVal) : CVal :=
  if v = CVal.str "nan" then CVal.null else v

/-- `engineer_features` at row level: the four credit extractions when the
credits column is present, then release_year, then 'nan' cleanup. -/
def engineerRow (cols : List String) (r : Row) : Except Unit Row := do
  let r ← applyUdf cols "credits" "cast" extract_top_cast r
  let r ← applyUdf cols "credits" "cast_size" get_cast_size r
  let r ← applyUdf cols "credits" "director" extract_director r
  let r ← applyUdf cols "credits" "crew_size" get_crew_size r
  let r := if "release_date" ∈ cols then
             setVal r "release_year" (yearOf (getVal r "release_date")) else r
  Except.ok (["tagline", "title", "collection_name"].foldl
    (fun r c => mapColIfPresent cols c nanToNull r) r)

/-- Evaluate `engineer_features` over all rows. -/
def engineerRows (cols : List String) : List Row → Except Unit (List Row)
  | [] => Except.ok []
  | r :: rs => do
      let r' ← engineerRow cols r
      let rs' ← engineerRows cols rs
      Except.ok (r' :: rs')

/-- `engineer_features` over the frame, with its schema additions. -/
def engineer_features (df : DF) : Except Unit DF := do
  let rows ← engineerRows df.cols df.rows
  let cols1 := if "credits" ∈ df.cols then
                 addCol (addCol (addCol (addCol df.cols "cast") "cast_size")
                   "director") "crew_size"
               else df.cols
  let cols2 := if "release_date" ∈ df.cols then addCol cols1 "release_year"
               else cols1
  Except.ok { cols := cols2, rows := rows }

/-- `sort_genres`: alphabetically sort the pipe-separated genre tokens. -/
def sort_genres (df : DF) : DF :=
  if "genres" ∈ df.cols then
    { cols := df.cols,
      rows := df.rows.map (fun r =>
        setVal r "genres" (sort_pipe_separated (getVal r "genres"))) }
  else df

/-- The canonical column order of `finalize_dataframe`. -/
def desiredOrder : List String :=
  ["id", "title", "tagline", "release_date", "genres", "collection_name",
   "original_language", "budget_musd", "revenue_musd", "production_companies",
   "production_countries", "vote_count", "vote_average", "popularity",
   "runtime", "overview", "spoken_languages",
   "cast", "cast_size", "director", "crew_size", "release_year", "keywords"]

/-- `finalize_dataframe`: select the present canonical columns in order. -/
def finalize_dataframe (df : DF) : DF :=
  df.selectCols (desiredOrder.filter (fun c => c ∈ df.cols))

/-- `clean_all`: the full cleaning pipeline in source order. -/
def clean_all (df : DF) : Except Unit DF := do
  let df := drop_irrelevant_columns df
  let df ← flatten_nested_columns df
  let df := clean_datatypes df
  let df := filter_data df
  let df ← engineer_features df
  let df := sort_genres df
  Except.ok (finalize_dataframe df)

/-! ## Search filters from src/analytics/filters.py -/

/-- `filter_by_genres`: fold the per-token `contains` conditions with the
tri-valued `&`/`|` exactly as the Python loop builds them, starting from
`lit(True)` for match_all and `lit(False)` otherwise; a row survives the
Spark filter only when the final condition is definitely true. -/
def filter_by_genres (df : DF) (genres : List String) (matchAll : Bool) : DF :=
  df.filterRows (fun r =>
    let cond :=
      if matchAll then
        genres.foldl (fun acc g => and3 acc (containsTok (getVal r "genres") g))
          (some true)
      else
        genres.foldl (fun acc g => or3 acc (containsTok (getVal r "genres") g))
          (some false)
    cond = some true)

/-- `F.lower` on a nullable string column. -/
def lowerVal : CVal → CVal
  | CVal.str s => CVal.str s.toLower
  | _ => CVal.null

/-- `filter_by_actor`: missing cast column short-circuits to
`filter(lit(False))`, i.e. an empty frame with the same schema; otherwise
keep the rows whose (optionally lowercased) cast string contains the
name, conjoined with `cast.isNotNull()`. -/
def filter_by_actor (df : DF) (actorName : String) (caseSensitive : Bool) : DF :=
  if "cast" ∉ df.cols then
    df.filterRows (fun _ => false)
  else
    df.filterRows (fun r =>
      let cond :=
        if caseSensitive then containsTok (getVal r "cast") actorName
        else containsTok (lowerVal (getVal r "cast")) actorName.toLower
      and3 cond (some (getVal r "cast" ≠ CVal.null)) = some true)

/-- `filter_by_director`: same shape as `filter_by_actor` over the
director column. -/
def filter_by_director (df : DF) (directorName : String) (caseSensitive : Bool) : DF :=
  if "director" ∉ df.cols then
    df.filterRows (fun _ => false)
  else
    df.filterRows (fun r =>
      let cond :=
        if caseSensitive then containsTok (getVal r "director") directorName
        else containsTok (lowerVal (getVal r "director")) directorName.toLower
      and3 cond (some (getVal r "director" ≠ CVal.null)) = some true)

/-! ## Ranking engine from src/analytics/kpi_calculator.py -/

/-- The derivation prologue of `rank_movies` (lines 63-86): add
release_year from release_date when missing, then materialize
profit_musd / roi when they are the requested metric and the operands
exist. -/
def deriveCols (df : DF) (metric : String) : DF :=
  let d1 :=
    if "release_year" ∉ df.cols ∧ "release_date" ∈ df.cols then
      df.withColumn "release_year" (fun r => yearOf (getVal r "release_date"))
    else df
  let d2 :=
    if metric = "profit_musd" ∧ "profit_musd" ∉ d1.cols ∧
        "revenue_musd" ∈ d1.cols ∧ "budget_musd" ∈ d1.cols then
      d1.withColumn "profit_musd"
        (fun r => sub3 (getVal r "revenue_musd") (getVal r "budget_musd"))
    else d1
  if metric = "roi" ∧ "roi" ∉ d2.cols ∧
      "revenue_musd" ∈ d2.cols ∧ "budget_musd" ∈ d2.cols then
    d2.withColumn "roi"
      (fun r => roiOf (getVal r "budget_musd") (getVal r "revenue_musd"))
  else d2

/-- The default display-column choice of `rank_movies` (lines 114-135). -/
def defaultDisplay (metric : String) (cols : List String) : List String :=
  let base := ["rank", "title", metric]
  let optional :=
    if metric = "revenue_musd" ∨ metric = "budget_musd" ∨ metric = "profit_musd" then
      ["release_year", "budget_musd", "revenue_musd"]
    else if metric = "roi" then
      ["release_year", "budget_musd", "revenue_musd", "roi"]
    else if metric = "vote_average" ∨ metric = "vote_count" then
      ["release_year", "vote_average", "vote_count"]
    else if metric = "popularity" then
      ["release_year", "popularity", "vote_average"]
    else ["release_year"]
  base ++ optional.filter (fun c => c ∉ base ∧ c ∈ cols)

/-- Spark `select` fails (AnalysisException) when a requested column does
not exist. -/
def selectChecked (df : DF) (cs : List String) : Except Unit DF :=
  if cs.all (fun c => c ∈ df.cols) then Except.ok (df.selectCols cs)
  else Except.error ()

/-- `rank_movies`: derive, filter, drop null metrics (or return the empty
`rank INT, title STRING` frame when the metric is unknown), sort,
truncate to top_n, number the surviving rows 1.. by position, and project
the display columns. -/
def rank_movies (df : DF) (metric : String) (ascending : Bool) (topN : Nat)
    (filterCondition : Option (Row → Bool))
    (displayColumns : Option (List String)) : Except Unit DF :=
  let dfd := deriveCols df metric
  let dff := match filterCondition with
             | some p => dfd.filterRows p
             | none => dfd
  if metric ∈ dff.cols then
    let dfn := dff.filterRows (fun r => getVal r metric ≠ CVal.null)
    let sorted :=
      if ascending then
        sortLe (fun r1 r2 => valLeB (getVal r1 metric) (getVal r2 metric)) dfn.rows
      else
        sortLe (fun r1 r2 => valLeB (getVal r2 metric) (getVal r1 metric)) dfn.rows
    let top := sorted.take topN
    let ranked := (top.enum).map (fun p => setVal p.2 "rank" (CVal.int (p.1 + 1)))
    let dtop : DF := { cols := addCol dfn.cols "rank", rows := ranked }
    let display := match displayColumns with
                   | some cs => cs
                   | none => defaultDisplay metric dtop.cols
    selectChecked dtop display
  else
    Except.ok { cols := ["rank", "title"], rows := [] }

/-! ## Aggregations from src/analytics/aggregations.py -/

/-- `F.mean`: the mean of the non-null numeric values, null when there are
none. -/
def meanOf (vs : List CVal) : CVal :=
  let qs := vs.filterMap toRat
  match qs with
  | [] => CVal.null
  | _ => CVal.real (qs.sum / (qs.length : Rat))

/-- Model of `percentile_approx(col, 0.5)`: on the small exact frames of
this development it returns the element of the sorted non-null values at
rank ⌈n/2⌉, null when every value is null. -/
def medianApprox (vs : List CVal) : CVal :=
  let qs := sortLe (fun a b => decide (a ≤ b)) (vs.filterMap toRat)
  match qs.get? ((qs.length + 1) / 2 - 1) with
  | some q => CVal.real q
  | none => CVal.null

/-- First-occurrence deduplication of the grouping keys of a `groupBy`. -/
def dedupVals : List CVal → List CVal → List CVal
  | [], _ => []
  | v :: vs, seen =>
      if v ∈ seen then dedupVals vs seen
      else v :: dedupVals vs (v :: seen)

/-- The franchise flag of `compare_franchise_vs_standalone` (lines 51-54):
`F.when(collection_name.isNotNull(), 'Franchise').otherwise('Standalone')`. -/
def franchiseFlag (r : Row) : CVal :=
  if getVal r "collection_name" ≠ CVal.null then CVal.str "Franchise"
  else CVal.str "Standalone"

/-- The aggregate row computed for one `is_franchise` partition. -/
def compareAggRow (rows : List Row) (k : CVal) : Row :=
  let g := rows.filter (fun r => getVal r "is_franchise" = k)
  [("is_franchise", k),
   ("movie_count", CVal.int g.length),
   ("mean_revenue_musd", meanOf (g.map (fun r => getVal r "revenue_musd"))),
   ("median_roi", medianApprox (g.map (fun r => getVal r "roi"))),
   ("mean_budget_musd", meanOf (g.map (fun r => getVal r "budget_musd"))),
   ("mean_popularity", meanOf (g.map (fun r => getVal r "popularity"))),
   ("mean_rating", meanOf (g.map (fun r => getVal r "vote_average")))]

/-- `compare_franchise_vs_standalone`: flag each row, materialize profit
and roi, group by the flag, and order the (at most two) aggregate rows by
the flag descending. -/
def compare_franchise_vs_standalone (df : DF) : DF :=
  let flagged := df.withColumn "is_franchise" franchiseFlag
  let calcd := (flagged.withColumn "profit_musd"
      (fun r => sub3 (getVal r "revenue_musd") (getVal r "budget_musd"))).withColumn
      "roi" (fun r => roiOf (getVal r "budget_musd") (getVal r "revenue_musd"))
  let keys := dedupVals (calcd.rows.map (fun r => getVal r "is_franchise")) []
  let aggRows := keys.map (compareAggRow calcd.rows)
  let le : Row → Row → Bool := fun r1 r2 =>
    valLeB (getVal r2 "is_franchise") (getVal r1 "is_franchise")
  { cols := ["is_franchise", "movie_count", "mean_revenue_musd", "median_roi",
             "mean_budget_musd", "mean_popularity", "mean_rating"],
    rows := sortLe le aggRows }

/-- The rows of `rank_movies` that remain after the optional filter
condition and the null-metric drop: the population the rank ordinals are
assigned over (after sorting and truncation). -/
def survivingRows (df : DF) (metric : String) (cond : Option (Row → Bool)) :
    List Row :=
  ((match cond with
    | some p => (deriveCols df metric).filterRows p
    | none => deriveCols df metric).rows).filter
    (fun r => getVal r metric ≠ CVal.null)

/-! ## Concrete frames used as witnesses and counterexamples -/

/-- A raw one-movie frame (valid id/title/status, one nested genre). -/
def c6raw : DF :=
  { cols := ["id", "title", "status", "genres"],
    rows := [[("id", CVal.int 1), ("title", CVal.str "A"),
              ("status", CVal.str "Released"),
              ("genres", CVal.nameArr [some "Action"])]] }

/-- The canonical record `clean_all` produces from `c6raw`. -/
def c6cleanRow : Row :=
  [("id", CVal.int 1), ("title", CVal.str "A"), ("genres", CVal.str "Action")]

/-- The cleaned frame `clean_all` produces from `c6raw`. -/
def c6clean : DF :=
  { cols := ["id", "title", "genres"], rows := [c6cleanRow] }

/-- A frame with one franchise and one standalone record. -/
def c4df : DF :=
  { cols := ["title", "collection_name", "revenue_musd", "budget_musd",
             "popularity", "vote_average"],
    rows := [[("title", CVal.str "F1"), ("collection_name", CVal.str "X"),
              ("revenue_musd", CVal.real 100), ("budget_musd", CVal.real 50),
              ("popularity", CVal.real 10), ("vote_average", CVal.real 7)],
             [("title", CVal.str "S1"), ("collection_name", CVal.null),
              ("revenue_musd", CVal.real 40), ("budget_musd", CVal.real 20),
              ("popularity", CVal.real 5), ("vote_average", CVal.real 6)]] }

/-- The franchise row of `c4df`. -/
def c4rowF : Row :=
  [("title", CVal.str "F1"), ("collection_name", CVal.str "X"),
   ("revenue_musd", CVal.real 100), ("budget_musd", CVal.real 50),
   ("popularity", CVal.real 10), ("vote_average", CVal.real 7)]

/-- The standalone row of `c4df`. -/
def c4rowS : Row :=
  [("title", CVal.str "S1"), ("collection_name", CVal.null),
   ("revenue_musd", CVal.real 40), ("budget_musd", CVal.real 20),
   ("popularity", CVal.real 5), ("vote_average", CVal.real 6)]

/-- A frame containing only a standalone record. -/
def c4dfStandalone : DF :=
  { cols := ["title", "collection_name", "revenue_musd", "budget_musd",
             "popularity", "vote_average"],
    rows := [c4rowS] }

/-- A second two-record frame (franchise record listed after the
standalone one) for the C4 witness. -/
def c4df2 : DF :=
  { cols := ["title", "collection_name", "revenue_musd"],
    rows := [[("title", CVal.str "S9"), ("collection_name", CVal.null),
              ("revenue_musd", CVal.real 7)],
             [("title", CVal.str "F9"), ("collection_name", CVal.str "Saga"),
              ("revenue_musd", CVal.real 9)]] }

/-- The franchise row of `c4df2`. -/
def c4df2rowF : Row :=
  [("title", CVal.str "F9"), ("collection_name", CVal.str "Saga"),
   ("revenue_musd", CVal.real 9)]

/-- The standalone row of `c4df2`. -/
def c4df2rowS : Row :=
  [("title", CVal.str "S9"), ("collection_name", CVal.null),
   ("revenue_musd", CVal.real 7)]

/-- A one-record frame: fewer records than the requested top_n. -/
def c5cdf : DF :=
  { cols := ["title", "revenue_musd"],
    rows := [[("title", CVal.str "A"), ("revenue_musd", CVal.real 3)]] }

/-- The three-movie KPI frame from the acceptance scenarios. -/
def c5wdf : DF :=
  { cols := ["title", "revenue_musd", "budget_musd"],
    rows := [[("title", CVal.str "HighRev"), ("revenue_musd", CVal.real 100),
              ("budget_musd", CVal.real 50)],
             [("title", CVal.str "LowRev"), ("revenue_musd", CVal.real 10),
              ("budget_musd", CVal.real 5)],
             [("title", CVal.str "Flop"), ("revenue_musd", CVal.real 1),
              ("budget_musd", CVal.real 20)]] }

/-- A frame whose only record has lowercase status "released". -/
def c3df : DF :=
  { cols := ["id", "title", "status"],
    rows := [[("id", CVal.int 1), ("title", CVal.str "T"),
              ("status", CVal.str "released")]] }

/-- A valid released record for the C3 witness. -/
def c3wRow : Row :=
  [("id", CVal.int 1), ("title", CVal.str "Good"),
   ("status", CVal.str "Released")]

/-- The frame holding `c3wRow`. -/
def c3wdf : DF :=
  { cols := ["id", "title", "status"], rows := [c3wRow] }

/-- A frame with a duplicated id, a missing id and a non-released row
(the shape of the repository's own `test_filter_data`). -/
def c2df : DF :=
  { cols := ["id", "title", "status"],
    rows := [[("id", CVal.int 1), ("title", CVal.str "Good"),
              ("status", CVal.str "Released")],
             [("id", CVal.int 2), ("title", CVal.str "Rumored"),
              ("status", CVal.str "Rumored")],
             [("id", CVal.int 1), ("title", CVal.str "Duplicate"),
              ("status", CVal.str "Released")],
             [("id", CVal.null), ("title", CVal.str "NoID"),
              ("status", CVal.str "Released")]] }

/-- The single survivor of `filter_data` on `c2df`. -/
def c2survivor : Row :=
  [("id", CVal.int 1), ("title", CVal.str "Good")]

/-- A frame with a date column but no release_year column. -/
def c7df2 : DF :=
  { cols := ["release_date", "title"],
    rows := [[("release_date", CVal.date 2020 1 1), ("title", CVal.str "A")]] }

/-- A frame with neither analytics columns nor derivable operands. -/
def c7df : DF :=
  { cols := ["title"], rows := [[("title", CVal.str "A")]] }

/-- A genre frame with two tagged records and one null-genre record. -/
def c9df : DF :=
  { cols := ["genres", "title"],
    rows := [[("genres", CVal.str "Action|Adventure"), ("title", CVal.str "a")],
             [("genres", CVal.str "Drama"), ("title", CVal.str "b")],
             [("genres", CVal.null), ("title", CVal.str "c")]] }

/-! ## Basic lemmas about rows and frames -/

theorem getVal_nil (c : String) : getVal [] c = CVal.null := rfl

theorem getVal_cons (p : String × CVal) (ps : Row) (c : String) :
    getVal (p :: ps) c = if p.1 = c then p.2 else getVal ps c := by
  by_cases hp : p.1 = c
  · simp [getVal, List.find?, hp]
  · simp [getVal, List.find?, hp]

theorem getVal_map_replace (r : Row) (c c' : String) (v : CVal) (h : c' ≠ c) :
    getVal (r.map (fun p => if p.1 = c then (c, v) else p)) c' = getVal r c' := by
  induction r with
  | nil => rfl
  | cons p ps ih =>
    by_cases hp : p.1 = c
    · rw [List.map_cons, if_pos hp, getVal_cons, getVal_cons,
        if_neg (fun hcc : c = c' => h hcc.symm),
        if_neg (fun hpc : p.1 = c' => h (hp ▸ hpc : c = c').symm)]
      exact ih
    · rw [List.map_cons, if_neg hp, getVal_cons, getVal_cons]
      by_cases hpc : p.1 = c'
      · rw [if_pos hpc, if_pos hpc]
      · rw [if_neg hpc, if_neg hpc]; exact ih

theorem getVal_append_single (r : Row) (c c' : String) (v : CVal) (h : c' ≠ c) :
    getVal (r ++ [(c, v)]) c' = getVal r c' := by
  induction r with
  | nil =>
    rw [List.nil_append, getVal_cons]
    simp [if_neg (fun hcc : c = c' => h hcc.symm), getVal_nil]
  | cons p ps ih =>
    rw [List.cons_append, getVal_cons, getVal_cons]
    by_cases hpc : p.1 = c'
    · rw [if_pos hpc, if_pos hpc]
    · rw [if_neg hpc, if_neg hpc]; exact ih

theorem getVal_setVal (r : Row) (c : String) (v : CVal) :
    getVal (setVal r c v) c = v := by
  unfold setVal
  by_cases hany : r.any (fun p => p.1 = c)
  · rw [if_pos hany]
    induction r with
    | nil => simp at hany
    | cons p ps ih =>
      by_cases hp : p.1 = c
      · rw [List.map_cons, if_pos hp, getVal_cons, if_pos rfl]
      · have hany2 := hany
        simp only [List.any_cons, Bool.or_eq_true, decide_eq_true_eq] at hany2
        rw [List.map_cons, if_neg hp, getVal_cons, if_neg hp]
        exact ih (by simpa using hany2.resolve_left hp)
  · rw [if_neg hany]
    induction r with
    | nil => rw [List.nil_append, getVal_cons, if_pos rfl]
    | cons p ps ih =>
      simp only [List.any_cons, Bool.or_eq_true, decide_eq_true_eq, not_or] at hany
      rw [List.cons_append, getVal_cons, if_neg hany.1]
      exact ih (by simp [hany.2])

theorem getVal_setVal_ne (r : Row) {c c' : String} (h : c' ≠ c) (v : CVal) :
    getVal (setVal r c v) c' = getVal r c' := by
  unfold setVal
  by_cases hany : r.any (fun p => p.1 = c)
  · rw [if_pos hany]; exact getVal_map_replace r c c' v h
  · rw [if_neg hany]; exact getVal_append_single r c c' v h

theorem getVal_removeKeys (r : Row) {c : String} (cs : List String) (h : c ∉ cs) :
    getVal (removeKeys r cs) c = getVal r c := by
  unfold removeKeys
  induction r with
  | nil => rfl
  | cons p ps ih =>
    rw [List.filter_cons, getVal_cons]
    by_cases hmem : p.1 ∈ cs
    · have hd : (decide (p.1 ∉ cs)) = false := by simp [hmem]
      rw [hd, if_neg (by simp), if_neg (fun hpc : p.1 = c => h (hpc ▸ hmem))]
      exact ih
    · have hd : (decide (p.1 ∉ cs)) = true := by simp [hmem]
      rw [hd, if_pos rfl, getVal_cons]
      by_cases hpc : p.1 = c
      · rw [if_pos hpc, if_pos hpc]
      · rw [if_neg hpc, if_neg hpc]; exact ih

theorem getVal_removeKey (r : Row) {c c' : String} (h : c' ≠ c) :
    getVal (removeKey r c) c' = getVal r c' := by
  unfold removeKey
  induction r with
  | nil => rfl
  | cons p ps ih =>
    rw [List.filter_cons, getVal_cons]
    by_cases hpc : p.1 = c
    · have hd : (decide (p.1 ≠ c)) = false := by simp [hpc]
      rw [hd, if_neg (by simp), if_neg (fun hpc' : p.1 = c' => h (hpc' ▸ hpc))]
      exact ih
    · have hd : (decide (p.1 ≠ c)) = true := by simp [hpc]
      rw [hd, if_pos rfl, getVal_cons]
      by_cases hpc' : p.1 = c'
      · rw [if_pos hpc', if_pos hpc']
      · rw [if_neg hpc', if_neg hpc']; exact ih

theorem getVal_projectRow (r : Row) {c : String} {cs : List String} (h : c ∈ cs) :
    getVal (projectRow cs r) c = getVal r c := by
  unfold projectRow
  induction cs with
  | nil => simp at h
  | cons c' cs' ih =>
    rw [List.map_cons, getVal_cons]
    by_cases hcc : c' = c
    · rw [if_pos hcc]; simp [hcc]
    · rw [if_neg hcc]
      rcases List.mem_cons.mp h with hc | hc
      · exact absurd hc.symm hcc
      · exact ih hc

theorem mem_addCol {cols : List String} {c c' : String} :
    c' ∈ addCol cols c ↔ c' ∈ cols ∨ c' = c := by
  unfold addCol
  by_cases hc : c ∈ cols
  · rw [if_pos hc]
    exact ⟨Or.inl, fun h => h.elim id (fun hh => hh ▸ hc)⟩
  · rw [if_neg hc]
    simp [List.mem_append]

theorem mem_addCol_of_mem {cols : List String} {c c' : String} (h : c' ∈ cols) :
    c' ∈ addCol cols c := mem_addCol.mpr (Or.inl h)

theorem length_insertLe {α : Type} (le : α → α → Bool) (x : α) (l : List α) :
    (insertLe le x l).length = l.length + 1 := by
  induction l with
  | nil => rfl
  | cons y ys ih =>
    rw [insertLe]
    by_cases h : le x y
    · rw [if_pos h]; rfl
    · rw [if_neg h, List.length_cons, List.length_cons, ih]

theorem length_sortLe {α : Type} (le : α → α → Bool) (l : List α) :
    (sortLe le l).length = l.length := by
  induction l with
  | nil => rfl
  | cons x xs ih => rw [sortLe, length_insertLe, ih, List.length_cons]

/-! ## Deduplication lemmas -/

theorem mem_of_mem_dedupById {l : List Row} {seen : List CVal} {r : Row}
    (h : r ∈ dedupById l seen) : r ∈ l := by
  induction l generalizing seen with
  | nil => simp [dedupById] at h
  | cons x xs ih =>
    rw [dedupById] at h
    by_cases hx : getVal x "id" ∈ seen
    · rw [if_pos hx] at h
      exact List.mem_cons_of_mem _ (ih h)
    · rw [if_neg hx] at h
      rcases List.mem_cons.mp h with rfl | h2
      · exact List.mem_cons_self _ _
      · exact List.mem_cons_of_mem _ (ih h2)

theorem key_notin_seen_dedupById {l : List Row} {seen : List CVal} {r : Row}
    (h : r ∈ dedupById l seen) : getVal r "id" ∉ seen := by
  induction l generalizing seen with
  | nil => simp [dedupById] at h
  | cons x xs ih =>
    rw [dedupById] at h
    by_cases hx : getVal x "id" ∈ seen
    · rw [if_pos hx] at h
      exact ih h
    · rw [if_neg hx] at h
      rcases List.mem_cons.mp h with rfl | h2
      · exact hx
      · exact fun hs => ih h2 (List.mem_cons_of_mem _ hs)

theorem nodup_keys_dedupById (l : List Row) (seen : List CVal) :
    ((dedupById l seen).map (fun r => getVal r "id")).Nodup := by
  induction l generalizing seen with
  | nil => simp [dedupById]
  | cons x xs ih =>
    rw [dedupById]
    by_cases hx : getVal x "id" ∈ seen
    · rw [if_pos hx]
      exact ih seen
    · rw [if_neg hx, List.map_cons]
      refine List.nodup_cons.mpr ⟨?_, ih _⟩
      intro hmem
      rcases List.mem_map.mp hmem with ⟨r, hr, hkey⟩
      exact key_notin_seen_dedupById hr (by rw [hkey]; exact List.mem_cons_self _ _)

theorem find?_dedupById {l : List Row} {seen : List CVal} {r : Row}
    (h : r ∈ dedupById l seen) :
    l.find? (fun x => getVal x "id" = getVal r "id") = some r := by
  induction l generalizing seen with
  | nil => simp [dedupById] at h
  | cons x xs ih =>
    rw [dedupById] at h
    by_cases hx : getVal x "id" ∈ seen
    · rw [if_pos hx] at h
      have hne : ¬ (getVal x "id" = getVal r "id") := by
        intro he
        exact key_notin_seen_dedupById h (he ▸ hx)
      rw [List.find?_cons_of_neg _ (by simp [hne])]
      exact ih h
    · rw [if_neg hx] at h
      rcases List.mem_cons.mp h with rfl | h2
      · rw [List.find?_cons_of_pos _ (by simp)]
      · have hne : ¬ (getVal x "id" = getVal r "id") := by
          intro he
          exact key_notin_seen_dedupById h2 (by rw [← he]; exact List.mem_cons_self _ _)
        rw [List.find?_cons_of_neg _ (by simp [hne])]
        exact ih h2

theorem mem_dedupVals {l : List CVal} {seen : List CVal} {v : CVal} :
    v ∈ dedupVals l seen ↔ v ∈ l ∧ v ∉ seen := by
  induction l generalizing seen with
  | nil => simp [dedupVals]
  | cons x xs ih =>
    rw [dedupVals]
    by_cases hx : x ∈ seen
    · rw [if_pos hx, ih, List.mem_cons]
      constructor
      · rintro ⟨hv, hs⟩
        exact ⟨Or.inr hv, hs⟩
      · rintro ⟨hv | hv, hs⟩
        · exact absurd (hv ▸ hx) hs
        · exact ⟨hv, hs⟩
    · rw [if_neg hx]
      simp only [List.mem_cons, ih]
      constructor
      · rintro (rfl | ⟨hv, hs⟩)
        · exact ⟨Or.inl rfl, hx⟩
        · refine ⟨Or.inr hv, ?_⟩
          intro hvs
          exact hs (Or.inr hvs)
      · rintro ⟨hv | hv, hs⟩
        · exact Or.inl hv
        · by_cases hvx : v = x
          · exact Or.inl hvx
          · refine Or.inr ⟨hv, ?_⟩
            rintro (h1 | h2)
            · exact hvx h1
            · exact hs h2

theorem nodup_dedupVals (l : List CVal) (seen : List CVal) :
    (dedupVals l seen).Nodup := by
  induction l generalizing seen with
  | nil => simp [dedupVals]
  | cons x xs ih =>
    rw [dedupVals]
    by_cases hx : x ∈ seen
    · rw [if_pos hx]; exact ih seen
    · rw [if_neg hx]
      refine List.nodup_cons.mpr ⟨?_, ih _⟩
      intro hmem
      exact (mem_dedupVals.mp hmem).2 (List.mem_cons_self _ _)

/-- A duplicate-free list whose members all lie in a two-element set and
contain both of them is one of the two orderings of that set. -/
theorem nodup_pair_eq {α : Type} {l : List α} {a b : α} (hne : a ≠ b)
    (hsub : ∀ x ∈ l, x = a ∨ x = b) (hnd : l.Nodup) (ha : a ∈ l) (hb : b ∈ l) :
    l = [a, b] ∨ l = [b, a] := by
  match l with
  | [] => simp at ha
  | [x] =>
    rcases List.mem_singleton.mp ha with rfl
    exact absurd (List.mem_singleton.mp hb).symm hne
  | x :: y :: rest =>
    have hxy : x ≠ y := by
      intro he
      exact (List.nodup_cons.mp hnd).1 (he ▸ List.mem_cons_self _ _)
    have hrest : rest = [] := by
      cases rest with
      | nil => rfl
      | cons z rest2 =>
        exfalso
        have hzx : z ≠ x := by
          intro he
          exact (List.nodup_cons.mp hnd).1
            (he ▸ List.mem_cons_of_mem _ (List.mem_cons_self _ _))
        have hzy : z ≠ y := by
          intro he
          exact (List.nodup_cons.mp (List.nodup_cons.mp hnd).2).1
            (he ▸ List.mem_cons_self _ _)
        have hz := hsub z (by simp)
        have hx := hsub x (by simp)
        have hy := hsub y (by simp)
        rcases hz with rfl | rfl <;> rcases hx with rfl | rfl <;>
          rcases hy with rfl | rfl <;> simp_all
    subst hrest
    have hx := hsub x (by simp)
    have hy := hsub y (by simp)
    rcases hx with rfl | rfl <;> rcases hy with rfl | rfl <;> simp_all

/-! ## Kleene fold lemmas -/

theorem and3_eq_true {a b : Option Bool} :
    and3 a b = some true ↔ a = some true ∧ b = some true := by
  rcases a with _ | av
  · rcases b with _ | bv
    · simp [and3]
    · cases bv <;> simp [and3]
  · cases av
    · simp [and3]
    · rcases b with _ | bv
      · simp [and3]
      · cases bv <;> simp [and3]

theorem or3_eq_true {a b : Option Bool} :
    or3 a b = some true ↔ a = some true ∨ b = some true := by
  rcases a with _ | av
  · rcases b with _ | bv
    · simp [or3]
    · cases bv <;> simp [or3]
  · cases av
    · rcases b with _ | bv
      · simp [or3]
      · cases bv <;> simp [or3]
    · simp [or3]

theorem foldl_and3_eq_true {α : Type} (f : α → Option Bool) (l : List α)
    (acc : Option Bool) :
    l.foldl (fun a t => and3 a (f t)) acc = some true ↔
      acc = some true ∧ ∀ t ∈ l, f t = some true := by
  induction l generalizing acc with
  | nil => simp
  | cons t ts ih =>
    rw [List.foldl_cons, ih]
    rw [and3_eq_true]
    constructor
    · rintro ⟨⟨ha, hf⟩, hall⟩
      exact ⟨ha, by simpa [hf] using hall⟩
    · rintro ⟨ha, hall⟩
      refine ⟨⟨ha, hall t (List.mem_cons_self _ _)⟩, ?_⟩
      intro u hu
      exact hall u (List.mem_cons_of_mem _ hu)

theorem foldl_or3_eq_true {α : Type} (f : α → Option Bool) (l : List α)
    (acc : Option Bool) :
    l.foldl (fun a t => or3 a (f t)) acc = some true ↔
      acc = some true ∨ ∃ t ∈ l, f t = some true := by
  induction l generalizing acc with
  | nil => simp
  | cons t ts ih =>
    rw [List.foldl_cons, ih, or3_eq_true]
    constructor
    · rintro ((ha | hf) | ⟨u, hu, hfu⟩)
      · exact Or.inl ha
      · exact Or.inr ⟨t, List.mem_cons_self _ _, hf⟩
      · exact Or.inr ⟨u, List.mem_cons_of_mem _ hu, hfu⟩
    · rintro (ha | ⟨u, hu, hfu⟩)
      · exact Or.inl (Or.inl ha)
      · rcases List.mem_cons.mp hu with rfl | hu2
        · exact Or.inl (Or.inr hfu)
        · exact Or.inr ⟨u, hu2, hfu⟩

/-! ## Claim theorems -/

/-- C1 (counterexample): a record with a positive budget but a null
revenue gets a null roi from the shared ROI expression, refuting the
claimed "roi non-null iff budget_musd > 0". -/
theorem c1_roi_null_budget_positive :
    toRat (CVal.real 5) = some 5 ∧ (0 : Rat) < 5 ∧
    roiOf (CVal.real 5) CVal.null = CVal.null := by decide

/-- C1 (amended): the roi computed by `rank_movies` and
`compare_franchise_vs_standalone` is non-null iff budget_musd is a
positive number AND revenue_musd is non-null numeric; when non-null it
equals (revenue − budget)/budget × 100, and it is null whenever
budget_musd is not > 0. -/
theorem c1_roi_characterization (b r : CVal) :
    (roiOf b r ≠ CVal.null ↔
      ((∃ bq, toRat b = some bq ∧ 0 < bq) ∧ ∃ rq, toRat r = some rq)) ∧
    (∀ bq rq, toRat b = some bq → 0 < bq → toRat r = some rq →
      roiOf b r = CVal.real ((rq - bq) / bq * 100)) ∧
    (∀ bq, toRat b = some bq → ¬ 0 < bq → roiOf b r = CVal.null) := by
  refine ⟨?_, ?_, ?_⟩
  · rcases hb : toRat b with _ | bq
    · simp [roiOf, hb]
    · by_cases hbq : 0 < bq
      · rcases hr : toRat r with _ | rq
        · simp [roiOf, hb, hr, hbq]
        · simp [roiOf, hb, hr, hbq]
      · simp [roiOf, hb, hbq]
  · intro bq rq hbq h0 hrq
    simp [roiOf, hbq, hrq, h0]
  · intro bq hbq h0
    simp [roiOf, hbq, h0]

/-- C1 (witness): the characterization applied at budget 50, revenue 100
gives roi 100. -/
theorem c1_roi_characterization_witness :
    roiOf (CVal.real 50) (CVal.real 100) = CVal.real 100 := by
  have h := (c1_roi_characterization (CVal.real 50) (CVal.real 100)).2.1
    50 100 rfl (by norm_num) rfl
  have harith : ((100 : Rat) - 50) / 50 * 100 = 100 := by norm_num
  rw [harith] at h
  exact h

/-- C8: a frame without a cast column makes `filter_by_actor` return an
empty result for every actor name, and one without a director column
makes `filter_by_director` return an empty result for every director
name; neither raises. -/
theorem c8_missing_column_empty (df : DF) (a d : String) (cs1 cs2 : Bool) :
    ("cast" ∉ df.cols → (filter_by_actor df a cs1).rows = []) ∧
    ("director" ∉ df.cols → (filter_by_director df d cs2).rows = []) := by
  constructor
  · intro h
    rw [filter_by_actor, if_pos h]
    simp [DF.filterRows]
  · intro h
    rw [filter_by_director, if_pos h]
    simp [DF.filterRows]

/-- C8 (witness): both filters on the cast-less, director-less `c7df`. -/
theorem c8_missing_column_empty_witness :
    (filter_by_actor c7df "Bruce Willis" false).rows = [] ∧
    (filter_by_director c7df "Quentin Tarantino" false).rows = [] :=
  ⟨(c8_missing_column_empty c7df "Bruce Willis" "Quentin Tarantino" false false).1
     (by decide),
   (c8_missing_column_empty c7df "Bruce Willis" "Quentin Tarantino" false false).2
     (by decide)⟩

/-- C10: with an empty token list, `filter_by_genres` keeps every record
(null genres included) under match_all = true, and keeps none under
match_all = false. -/
theorem c10_empty_token_list (df : DF) :
    (filter_by_genres df [] true).rows = df.rows ∧
    (filter_by_genres df [] false).rows = [] := by
  constructor
  · simp [filter_by_genres, DF.filterRows]
  · simp [filter_by_genres, DF.filterRows]

/-- The match_all condition of `filter_by_genres` reduced to a Boolean:
with at least one token, only a non-null genre string containing every
token passes. -/
theorem genres_and_cond_eq (v : CVal) (toks : List String) (h : toks ≠ []) :
    decide (toks.foldl (fun acc g => and3 acc (containsTok v g)) (some true) =
        some true) =
      match v with
      | CVal.str s => toks.all (fun t => strContainsB s t)
      | _ => false := by
  obtain ⟨t0, ht0⟩ := List.exists_mem_of_ne_nil toks h
  cases v
  case str s =>
    show _ = toks.all (fun t => strContainsB s t)
    by_cases hall : toks.all (fun t => strContainsB s t)
    · rw [hall]
      apply decide_eq_true
      rw [foldl_and3_eq_true]
      refine ⟨rfl, ?_⟩
      intro t ht
      simp [containsTok, List.all_eq_true.mp hall t ht]
    · rw [Bool.eq_false_iff.mpr hall]
      apply decide_eq_false
      intro habs
      rw [foldl_and3_eq_true] at habs
      refine hall (List.all_eq_true.mpr ?_)
      intro t ht
      simpa [containsTok] using habs.2 t ht
  all_goals
    show _ = false
    apply decide_eq_false
    intro habs
    rw [foldl_and3_eq_true] at habs
    simpa [containsTok] using habs.2 t0 ht0

/-- The any-match condition of `filter_by_genres` reduced to a Boolean:
only a non-null genre string containing at least one token passes. -/
theorem genres_or_cond_eq (v : CVal) (toks : List String) :
    decide (toks.foldl (fun acc g => or3 acc (containsTok v g)) (some false) =
        some true) =
      match v with
      | CVal.str s => toks.any (fun t => strContainsB s t)
      | _ => false := by
  cases v
  case str s =>
    show _ = toks.any (fun t => strContainsB s t)
    by_cases hany : toks.any (fun t => strContainsB s t)
    · rw [hany]
      apply decide_eq_true
      rw [foldl_or3_eq_true]
      obtain ⟨t, ht, hc⟩ := List.any_eq_true.mp hany
      exact Or.inr ⟨t, ht, by simp [containsTok, hc]⟩
    · rw [Bool.eq_false_iff.mpr hany]
      apply decide_eq_false
      intro habs
      rw [foldl_or3_eq_true] at habs
      rcases habs with habs | ⟨t, ht, hc⟩
      · simp at habs
      · exact hany (List.any_eq_true.mpr ⟨t, ht, by simpa [containsTok] using hc⟩)
  all_goals
    show _ = false
    apply decide_eq_false
    intro habs
    rw [foldl_or3_eq_true] at habs
    rcases habs with habs | ⟨t, ht, hc⟩
    · simp at habs
    · simp [containsTok] at hc

/-- C9: with a non-empty token list, `filter_by_genres` keeps exactly the
records whose genre string contains every token as a substring
(match_all = true), resp. at least one token (match_all = false);
null-genre records match nothing. -/
theorem c9_genre_filter_semantics (df : DF) (toks : List String)
    (h : toks ≠ []) :
    (filter_by_genres df toks true).rows =
      df.rows.filter (fun r =>
        match getVal r "genres" with
        | CVal.str s => toks.all (fun t => strContainsB s t)
        | _ => false) ∧
    (filter_by_genres df toks false).rows =
      df.rows.filter (fun r =>
        match getVal r "genres" with
        | CVal.str s => toks.any (fun t => strContainsB s t)
        | _ => false) := by
  constructor
  · rw [filter_by_genres, DF.filterRows]
    apply List.filter_congr
    intro r _
    show decide ((if true = true then _ else _) = some true) = _
    rw [if_pos rfl]
    exact genres_and_cond_eq (getVal r "genres") toks h
  · rw [filter_by_genres, DF.filterRows]
    apply List.filter_congr
    intro r _
    show decide ((if false = true then _ else _) = some true) = _
    rw [if_neg (by simp)]
    exact genres_or_cond_eq (getVal r "genres") toks

/-- C9 (witness): the characterization applied to `c9df` with the token
lists of the spec example. -/
theorem c9_genre_filter_semantics_witness :
    (filter_by_genres c9df ["Action", "Adventure"] true).rows =
      c9df.rows.filter (fun r =>
        match getVal r "genres" with
        | CVal.str s => ["Action", "Adventure"].all (fun t => strContainsB s t)
        | _ => false) ∧
    (filter_by_genres c9df ["Action", "Adventure"] false).rows =
      c9df.rows.filter (fun r =>
        match getVal r "genres" with
        | CVal.str s => ["Action", "Adventure"].any (fun t => strContainsB s t)
        | _ => false) :=
  c9_genre_filter_semantics c9df ["Action", "Adventure"] (by decide)

/-- C2: after `filter_data` no id value appears twice, and every
surviving record is the first input record carrying its id (modulo the
dropped status column). -/
theorem c2_dedup_first_occurrence (df : DF) :
    (((filter_data df).rows.map (fun r => getVal r "id")).Nodup) ∧
    (∀ r ∈ (filter_data df).rows, ∃ r0,
      df.rows.find? (fun x => getVal x "id" = getVal r "id") = some r0 ∧
      (r = r0 ∨ r = removeKey r0 "status")) := by
  by_cases hs : "status" ∈ df.cols
  · simp only [filter_data, DF.filterRows, DF.dropCol, if_pos hs]
    constructor
    · rw [List.map_map]
      have hcong : ∀ r ∈ ((dedupById df.rows []).filter
          (fun r => decide (getVal r "id" ≠ CVal.null ∧
            getVal r "title" ≠ CVal.null))).filter
          (fun r => decide (getVal r "status" = CVal.str "Released")),
          ((fun r => getVal r "id") ∘ fun r => removeKey r "status") r =
            (fun r => getVal r "id") r := by
        intro r _
        exact getVal_removeKey r (by decide)
      rw [List.map_congr_left hcong]
      have hsub : (((dedupById df.rows []).filter
          (fun r => decide (getVal r "id" ≠ CVal.null ∧
            getVal r "title" ≠ CVal.null))).filter
          (fun r => decide (getVal r "status" = CVal.str "Released"))).Sublist
          (dedupById df.rows []) :=
        (List.filter_sublist _).trans (List.filter_sublist _)
      exact (nodup_keys_dedupById df.rows []).sublist
        (hsub.map (fun r => getVal r "id"))
    · intro r hr
      rcases List.mem_map.mp hr with ⟨r0, hr0, rfl⟩
      have hr0d : r0 ∈ dedupById df.rows [] :=
        List.mem_of_mem_filter (List.mem_of_mem_filter hr0)
      refine ⟨r0, ?_, Or.inr rfl⟩
      rw [getVal_removeKey r0 (by decide)]
      exact find?_dedupById hr0d
  · simp only [filter_data, DF.filterRows, DF.dropCol, if_neg hs]
    constructor
    · have hsub : ((dedupById df.rows []).filter
          (fun r => decide (getVal r "id" ≠ CVal.null ∧
            getVal r "title" ≠ CVal.null))).Sublist (dedupById df.rows []) :=
        List.filter_sublist _
      exact (nodup_keys_dedupById df.rows []).sublist
        (hsub.map (fun r => getVal r "id"))
    · intro r hr
      have hrd : r ∈ dedupById df.rows [] := List.mem_of_mem_filter hr
      exact ⟨r, find?_dedupById hrd, Or.inl rfl⟩

/-- C2 (witness): on the duplicate-laden `c2df`, the single survivor is
the first id-1 record. -/
theorem c2_dedup_first_occurrence_witness :
    ∃ r0, c2df.rows.find? (fun x => getVal x "id" = getVal c2survivor "id") =
        some r0 ∧
      (c2survivor = r0 ∨ c2survivor = removeKey r0 "status") :=
  (c2_dedup_first_occurrence c2df).2 c2survivor (by decide)

/-- C3 (counterexample): a record whose status is the lowercase
"released" (with valid id and title) is dropped by `filter_data`, so the
filter does not keep records with status "released" as claimed; the code
compares against "Released". -/
theorem c3_lowercase_released_dropped :
    getVal (c3df.rows.headD []) "status" = CVal.str "released" ∧
    getVal (c3df.rows.headD []) "id" ≠ CVal.null ∧
    getVal (c3df.rows.headD []) "title" ≠ CVal.null ∧
    c3df.rows.length = 1 ∧
    (filter_data c3df).rows = [] := by decide

/-- C3 (amended): for a frame with a status column, `filter_data` keeps
exactly the deduplicated, id- and title-bearing records whose status
equals "Released" (capital R, exact match), and the status column is
absent from the output. -/
theorem c3_released_exact_filter (df : DF) (hs : "status" ∈ df.cols) :
    ("status" ∉ (filter_data df).cols) ∧
    (∀ r ∈ (filter_data df).rows, ∃ r0 ∈ df.rows,
      getVal r0 "status" = CVal.str "Released" ∧ r = removeKey r0 "status") ∧
    (∀ r0 ∈ dedupById df.rows [],
      getVal r0 "id" ≠ CVal.null → getVal r0 "title" ≠ CVal.null →
      getVal r0 "status" = CVal.str "Released" →
      removeKey r0 "status" ∈ (filter_data df).rows) := by
  refine ⟨?_, ?_, ?_⟩
  · simp only [filter_data, DF.filterRows, DF.dropCol, if_pos hs]
    simp [List.mem_filter]
  · simp only [filter_data, DF.filterRows, DF.dropCol, if_pos hs]
    intro r hr
    rcases List.mem_map.mp hr with ⟨r0, hr0, rfl⟩
    have hstat : getVal r0 "status" = CVal.str "Released" := by
      have := (List.mem_filter.mp hr0).2
      simpa using this
    exact ⟨r0, mem_of_mem_dedupById
      (List.mem_of_mem_filter (List.mem_of_mem_filter hr0)), hstat, rfl⟩
  · simp only [filter_data, DF.filterRows, DF.dropCol, if_pos hs]
    intro r0 hr0 hid htitle hstat
    apply List.mem_map_of_mem
    apply List.mem_filter.mpr
    refine ⟨List.mem_filter.mpr ⟨hr0, by simp [hid, htitle]⟩, by simp [hstat]⟩

/-- C3 (witness): the amended filter applied to the one-record released
frame `c3wdf`. -/
theorem c3_released_exact_filter_witness :
    ("status" ∉ (filter_data c3wdf).cols) ∧
    removeKey c3wRow "status" ∈ (filter_data c3wdf).rows :=
  ⟨(c3_released_exact_filter c3wdf (by decide)).1,
   (c3_released_exact_filter c3wdf (by decide)).2.2 c3wRow (by decide)
     (by decide) (by decide) (by decide)⟩

/-- The columns added by the derivation prologue of `rank_movies`:
release_year (from release_date), and the requested profit_musd / roi
(from revenue_musd and budget_musd). -/
theorem deriveCols_cols_cases {df : DF} {metric c : String}
    (h : c ∈ (deriveCols df metric).cols) :
    c ∈ df.cols ∨
    (c = "release_year" ∧ "release_date" ∈ df.cols) ∨
    ((metric = "profit_musd" ∨ metric = "roi") ∧ c = metric ∧
      "revenue_musd" ∈ df.cols ∧ "budget_musd" ∈ df.cols) := by
  unfold deriveCols DF.withColumn at h
  dsimp only at h
  split_ifs at h <;>
    simp_all [mem_addCol] <;>
    tauto

/-- Every input column survives the derivation prologue. -/
theorem deriveCols_cols_mono {df : DF} {metric c : String} (h : c ∈ df.cols) :
    c ∈ (deriveCols df metric).cols := by
  unfold deriveCols DF.withColumn
  dsimp only
  split_ifs <;> simp [mem_addCol, h]

/-- C7 (counterexample): release_year is not a frame column of `c7df2`
and is not profit_musd or roi, yet ranking by it returns one row (it is
derived from release_date), refuting "empty result for every metric that
is neither a column nor derivable (profit_musd or roi)". -/
theorem c7_release_year_not_empty :
    "release_year" ∉ c7df2.cols ∧
    "release_year" ≠ "profit_musd" ∧ "release_year" ≠ "roi" ∧
    (rank_movies c7df2 "release_year" false 10 none none).toOption.map
      (fun d => d.rows.length) = some 1 := by decide

/-- C7 (amended): when the metric is neither a column nor derivable —
profit_musd or roi from existing revenue_musd and budget_musd, or
release_year from an existing release_date column — `rank_movies`
returns the empty (rank, title) frame instead of raising. -/
theorem c7_unknown_metric_empty (df : DF) (metric : String) (asc : Bool)
    (n : Nat) (cond : Option (Row → Bool)) (disp : Option (List String))
    (h1 : metric ∉ df.cols)
    (h2 : ¬(metric = "release_year" ∧ "release_date" ∈ df.cols))
    (h3 : ¬((metric = "profit_musd" ∨ metric = "roi") ∧
        "revenue_musd" ∈ df.cols ∧ "budget_musd" ∈ df.cols)) :
    rank_movies df metric asc n cond disp =
      Except.ok { cols := ["rank", "title"], rows := [] } := by
  have hd : metric ∉ (deriveCols df metric).cols := by
    intro hmem
    rcases deriveCols_cols_cases hmem with hcol | ⟨hry, hrd⟩ | ⟨hm, hcm, hrv, hb⟩
    · exact h1 hcol
    · exact h2 ⟨hry, hrd⟩
    · exact h3 ⟨hm, hrv, hb⟩
  have hd2 : metric ∉ (match cond with
      | some p => (deriveCols df metric).filterRows p
      | none => deriveCols df metric).cols := by
    cases cond <;> simpa [DF.filterRows] using hd
  rw [rank_movies.eq_def]
  rw [if_neg hd2]

/-- C7 (witness): an unknown metric on `c7df` yields the empty frame. -/
theorem c7_unknown_metric_empty_witness :
    rank_movies c7df "foo" false 10 none none =
      Except.ok { cols := ["rank", "title"], rows := [] } :=
  c7_unknown_metric_empty c7df "foo" false 10 none none (by decide)
    (by decide) (by decide)

/-- Every default display column is rank, title, the metric, or an
existing frame column. -/
theorem mem_defaultDisplay {metric : String} {cols : List String} {c : String}
    (h : c ∈ defaultDisplay metric cols) :
    c = "rank" ∨ c = "title" ∨ c = metric ∨ c ∈ cols := by
  unfold defaultDisplay at h
  rcases List.mem_append.mp h with hb | hf
  · simp only [List.mem_cons, List.not_mem_nil, or_false] at hb
    tauto
  · have := (List.mem_filter.mp hf).2
    simp only [decide_eq_true_eq] at this
    exact Or.inr (Or.inr (Or.inr this.2))

/-- rank heads the default display list. -/
theorem rank_mem_defaultDisplay (metric : String) (cols : List String) :
    "rank" ∈ defaultDisplay metric cols := by
  unfold defaultDisplay
  exact List.mem_append_left _ (by simp)

/-- The ordinals attached by the row_number window are the positions in
the truncated sorted sequence. -/
theorem map_rank_enum (display : List String) (h : "rank" ∈ display)
    (l : List Row) :
    List.map (fun r => getVal r "rank")
      (List.map (projectRow display)
        (List.map (fun p : Nat × Row => setVal p.2 "rank" (CVal.int (p.1 + 1)))
          l.enum)) =
      List.map (fun i : Nat => CVal.int (i + 1)) (List.range l.length) := by
  rw [List.map_map, List.map_map]
  have h1 : ∀ p ∈ l.enum,
      (((fun r => getVal r "rank") ∘ projectRow display) ∘
        fun p : Nat × Row => setVal p.2 "rank" (CVal.int (p.1 + 1))) p =
        ((fun i : Nat => CVal.int (i + 1)) ∘ Prod.fst) p := by
    intro p _
    show getVal (projectRow display (setVal p.2 "rank" (CVal.int (p.1 + 1)))) "rank" = _
    rw [getVal_projectRow _ h, getVal_setVal]
    rfl
  rw [List.map_congr_left h1, ← List.map_map, List.enum_map_fst]

/-- A select of columns that all exist succeeds. -/
theorem selectChecked_ok_of_all {df2 : DF} {cs : List String}
    (h : ∀ c ∈ cs, c ∈ df2.cols) :
    selectChecked df2 cs = Except.ok (df2.selectCols cs) := by
  rw [selectChecked,
    if_pos (List.all_eq_true.mpr (fun c hc => decide_eq_true (h c hc)))]

/-- C5 (amended): with the metric available (or derived) and a title
column present, ranking always succeeds and the rank column is exactly
the contiguous sequence 1..min(top_n, m) assigned by position, where m
counts the records that survive the filter condition and the null-metric
drop. -/
theorem c5_rank_contiguous (df : DF) (metric : String) (asc : Bool) (n : Nat)
    (cond : Option (Row → Bool))
    (hm : metric ∈ (deriveCols df metric).cols) (ht : "title" ∈ df.cols) :
    ∃ out, rank_movies df metric asc n cond none = Except.ok out ∧
      out.rows.map (fun r => getVal r "rank") =
        (List.range (min n (survivingRows df metric cond).length)).map
          (fun i : Nat => CVal.int (i + 1)) := by
  have hcols : (match cond with
      | some p => (deriveCols df metric).filterRows p
      | none => deriveCols df metric).cols = (deriveCols df metric).cols := by
    cases cond <;> rfl
  have hmf : metric ∈ (match cond with
      | some p => (deriveCols df metric).filterRows p
      | none => deriveCols df metric).cols := by
    rw [hcols]; exact hm
  rw [rank_movies.eq_def]
  rw [if_pos hmf]
  have hall : ∀ c ∈ defaultDisplay metric
      (addCol ((match cond with
        | some p => (deriveCols df metric).filterRows p
        | none => deriveCols df metric).filterRows
          (fun r => decide (getVal r metric ≠ CVal.null))).cols "rank"),
      c ∈ addCol ((match cond with
        | some p => (deriveCols df metric).filterRows p
        | none => deriveCols df metric).filterRows
          (fun r => decide (getVal r metric ≠ CVal.null))).cols "rank" := by
    intro c hc
    rcases mem_defaultDisplay hc with rfl | rfl | rfl | hin
    · exact mem_addCol.mpr (Or.inr rfl)
    · apply mem_addCol_of_mem
      show "title" ∈ (match cond with
        | some p => (deriveCols df metric).filterRows p
        | none => deriveCols df metric).cols
      rw [hcols]
      exact deriveCols_cols_mono ht
    · apply mem_addCol_of_mem
      exact hmf
    · exact hin
  refine ⟨_, selectChecked_ok_of_all hall, ?_⟩
  simp only [DF.selectCols]
  rw [map_rank_enum _ (rank_mem_defaultDisplay _ _)]
  have hlen : (if asc = true then
      sortLe (fun r1 r2 => valLeB (getVal r1 metric) (getVal r2 metric))
        ((match cond with
          | some p => (deriveCols df metric).filterRows p
          | none => deriveCols df metric).filterRows
            (fun r => decide (getVal r metric ≠ CVal.null))).rows
    else
      sortLe (fun r1 r2 => valLeB (getVal r2 metric) (getVal r1 metric))
        ((match cond with
          | some p => (deriveCols df metric).filterRows p
          | none => deriveCols df metric).filterRows
            (fun r => decide (getVal r metric ≠ CVal.null))).rows).length =
      (survivingRows df metric cond).length := by
    split <;> rw [length_sortLe] <;> rfl
  rw [List.length_take, hlen]

/-- C5 (witness): ranking the three-movie frame by revenue with top_n 2
gives ranks 1..2. -/
theorem c5_rank_contiguous_witness :
    ∃ out, rank_movies c5wdf "revenue_musd" false 2 none none =
        Except.ok out ∧
      out.rows.map (fun r => getVal r "rank") =
        (List.range (min 2 (survivingRows c5wdf "revenue_musd" none).length)).map
          (fun i : Nat => CVal.int (i + 1)) :=
  c5_rank_contiguous c5wdf "revenue_musd" false 2 none (by decide) (by decide)

/-- C5 (counterexample): a one-record frame ranked with top_n = 2 yields
the rank column [1], not the claimed 1..2. -/
theorem c5_rank_short_counterexample :
    (rank_movies c5cdf "revenue_musd" false 2 none none).toOption.map
        (fun out => out.rows.map (fun r => getVal r "rank")) =
      some [CVal.int 1] ∧
    [CVal.int 1] ≠ [CVal.int 1, CVal.int 2] := by decide

/-- The is_franchise flag survives the profit and roi column additions:
per row it is exactly `franchiseFlag`. -/
theorem flags_of_calcd (df : DF) :
    (((df.withColumn "is_franchise" franchiseFlag).withColumn "profit_musd"
        (fun r => sub3 (getVal r "revenue_musd") (getVal r "budget_musd"))).withColumn
        "roi" (fun r => roiOf (getVal r "budget_musd")
          (getVal r "revenue_musd"))).rows.map
      (fun r => getVal r "is_franchise") = df.rows.map franchiseFlag := by
  simp only [DF.withColumn, List.map_map]
  apply List.map_congr_left
  intro r _
  show getVal (setVal (setVal (setVal r "is_franchise" (franchiseFlag r))
    "profit_musd" _) "roi" _) "is_franchise" = franchiseFlag r
  rw [getVal_setVal_ne _ (by decide), getVal_setVal_ne _ (by decide), getVal_setVal]

/-- The aggregate row of a partition is labeled with its key. -/
theorem getVal_compareAggRow (rows : List Row) (k : CVal) :
    getVal (compareAggRow rows k) "is_franchise" = k := by
  simp [compareAggRow, getVal_cons]

/-- C4 (amended): whenever the input has at least one franchise record
and at least one standalone record, `compare_franchise_vs_standalone`
outputs exactly two rows ordered by the flag descending: the Standalone
row first, the Franchise row second. -/
theorem c4_standalone_first (df : DF)
    (h1 : ∃ r ∈ df.rows, getVal r "collection_name" ≠ CVal.null)
    (h2 : ∃ r ∈ df.rows, getVal r "collection_name" = CVal.null) :
    (compare_franchise_vs_standalone df).rows.map
        (fun r => getVal r "is_franchise") =
      [CVal.str "Standalone", CVal.str "Franchise"] := by
  obtain ⟨rF, hrF, hF⟩ := h1
  obtain ⟨rS, hrS, hS⟩ := h2
  simp only [compare_franchise_vs_standalone]
  set fl := (((df.withColumn "is_franchise" franchiseFlag).withColumn "profit_musd"
      (fun r => sub3 (getVal r "revenue_musd") (getVal r "budget_musd"))).withColumn
      "roi" (fun r => roiOf (getVal r "budget_musd")
        (getVal r "revenue_musd"))).rows.map
    (fun r => getVal r "is_franchise") with hfl
  have hflags : fl = df.rows.map franchiseFlag := hfl.symm.trans (flags_of_calcd df)
  have hFin : CVal.str "Franchise" ∈ dedupVals fl [] := by
    apply mem_dedupVals.mpr
    refine ⟨?_, by simp⟩
    rw [hflags]
    exact List.mem_map.mpr ⟨rF, hrF, by simp [franchiseFlag, hF]⟩
  have hSin : CVal.str "Standalone" ∈ dedupVals fl [] := by
    apply mem_dedupVals.mpr
    refine ⟨?_, by simp⟩
    rw [hflags]
    exact List.mem_map.mpr ⟨rS, hrS, by simp [franchiseFlag, hS]⟩
  have hsub : ∀ x ∈ dedupVals fl [],
      x = CVal.str "Franchise" ∨ x = CVal.str "Standalone" := by
    intro x hx
    have hxfl := (mem_dedupVals.mp hx).1
    rw [hflags] at hxfl
    rcases List.mem_map.mp hxfl with ⟨r, _, rfl⟩
    unfold franchiseFlag
    by_cases hc : getVal r "collection_name" ≠ CVal.null
    · rw [if_pos hc]; exact Or.inl rfl
    · rw [if_neg hc]; exact Or.inr rfl
  rcases nodup_pair_eq (by decide) hsub (nodup_dedupVals fl []) hFin hSin
    with hk | hk <;> rw [hk] <;>
    simp only [List.map_cons, List.map_nil, sortLe, insertLe] <;>
    simp [getVal_compareAggRow,
      show valLeB (CVal.str "Standalone") (CVal.str "Franchise") = false from by decide,
      show valLeB (CVal.str "Franchise") (CVal.str "Standalone") = true from by decide]

/-- C4 (counterexample): on a two-record frame the Standalone aggregate
row comes first (the orderBy is descending on the label), not the
Franchise row; and with no franchise records the output has one row, not
two. -/
theorem c4_franchise_not_first :
    (compare_franchise_vs_standalone c4df).rows.map
        (fun r => getVal r "is_franchise") =
      [CVal.str "Standalone", CVal.str "Franchise"] ∧
    (compare_franchise_vs_standalone c4dfStandalone).rows.length = 1 := by
  decide

/-- C4 (witness): the amended row order on the second two-record frame. -/
theorem c4_standalone_first_witness :
    (compare_franchise_vs_standalone c4df2).rows.map
        (fun r => getVal r "is_franchise") =
      [CVal.str "Standalone", CVal.str "Franchise"] :=
  c4_standalone_first c4df2 ⟨c4df2rowF, by decide, by decide⟩
    ⟨c4df2rowS, by decide, by decide⟩

/-- A failed step fails the monadic chain. -/
theorem error_bind {β γ : Type} (f : β → Except Unit γ) :
    (Except.error () >>= f : Except Unit γ) = Except.error () := rfl

/-- A successful step feeds the monadic chain. -/
theorem ok_bind {β γ : Type} (b : β) (f : β → Except Unit γ) :
    (Except.ok b >>= f : Except Unit γ) = f b := rfl

/-- Feeding a non-empty flat string to the array-of-structs extractor
raises (iterating a string yields characters, and `.name` on a character
is an AttributeError). -/
theorem extract_names_error_str {s : String} (h : s ≠ "") :
    extract_names_from_array (CVal.str s) = Except.error () := by
  have hpos : s.length > 0 := by
    rcases s with ⟨data⟩
    cases data with
    | nil => exact absurd rfl h
    | cons c cs => simp [String.length]
  rw [extract_names_from_array, if_pos hpos]

/-- A successful guarded UDF application only touches its destination
column. -/
theorem getVal_applyUdf_ok {cols : List String} {src dst : String}
    {u : CVal → Except Unit CVal} {r r2 : Row}
    (h : applyUdf cols src dst u r = Except.ok r2) {c : String}
    (hc : c ≠ dst) : getVal r2 c = getVal r c := by
  rw [applyUdf] at h
  by_cases hm : src ∈ cols
  · rw [if_pos hm] at h
    rcases hu : u (getVal r src) with e | v
    · simp only [hu] at h
      exact Except.noConfusion h
    · simp only [hu, Except.ok.injEq] at h
      rw [← h]
      exact getVal_setVal_ne r hc v
  · rw [if_neg hm] at h
    simp only [Except.ok.injEq] at h
    rw [← h]

/-- A row whose genres cell is a non-empty flat string makes the whole
flatten stage of that row fail. -/
theorem flattenRow_error {cols : List String} {r : Row} {s : String}
    (hg : "genres" ∈ cols) (hs : getVal r "genres" = CVal.str s)
    (hne : s ≠ "") : flattenRow cols r = Except.error () := by
  rw [flattenRow]
  rcases hb : applyUdf cols "belongs_to_collection" "collection_name"
      extract_collection_name r with e | r2
  · cases e
    exact error_bind _
  · have hg2 : getVal r2 "genres" = CVal.str s :=
      (getVal_applyUdf_ok hb (by decide)).trans hs
    have herr : applyUdf cols "genres" "genres" extract_names_from_array r2 =
        Except.error () := by
      rw [applyUdf, if_pos hg, hg2, extract_names_error_str hne]
    rw [ok_bind, herr, error_bind]

/-- One failing row fails the whole flatten pass. -/
theorem flattenRows_error {cols : List String} {rows : List Row} {r : Row}
    (hr : r ∈ rows) (he : flattenRow cols r = Except.error ()) :
    flattenRows cols rows = Except.error () := by
  induction rows with
  | nil => simp at hr
  | cons x xs ih =>
    rw [flattenRows]
    rcases List.mem_cons.mp hr with rfl | hr2
    · rw [he, error_bind]
    · rcases hx : flattenRow cols x with e | x2
      · cases e
        exact error_bind _
      · rw [ok_bind, ih hr2, error_bind]

/-- C6 (amended): re-running `clean_all` on any frame that carries a
non-empty genres string — as every output of `clean_all` with surviving
genre data does — fails with an error in the flatten stage instead of
reproducing the frame; the pipeline is not idempotent. -/
theorem c6_rerun_fails (d : DF) (hg : "genres" ∈ d.cols) (r : Row)
    (hr : r ∈ d.rows) (s : String) (hs : getVal r "genres" = CVal.str s)
    (hne : s ≠ "") : clean_all d = Except.error () := by
  have hg1 : "genres" ∈ (drop_irrelevant_columns d).cols :=
    List.mem_filter.mpr ⟨hg, by decide⟩
  have hr1 : removeKeys r colsToDrop ∈ (drop_irrelevant_columns d).rows := by
    simp only [drop_irrelevant_columns]
    exact List.mem_map_of_mem _ hr
  have hs1 : getVal (removeKeys r colsToDrop) "genres" = CVal.str s := by
    rw [getVal_removeKeys r colsToDrop (by decide), hs]
  have hrows := flattenRows_error hr1 (flattenRow_error hg1 hs1 hne)
  rw [clean_all, flatten_nested_columns, hrows, error_bind, error_bind]

/-- C6 (witness): re-running on the cleaned one-movie frame fails. -/
theorem c6_rerun_fails_witness : clean_all c6clean = Except.error () :=
  c6_rerun_fails c6clean (by decide) c6cleanRow (by decide) "Action"
    (by decide) (by decide)

/-- C6 (counterexample): `clean_all` maps the raw frame `c6raw` to
`c6clean`, but re-running it on `c6clean` raises instead of returning
the same collection. -/
theorem c6_not_idempotent :
    (clean_all c6raw).toOption = some c6clean ∧
    (clean_all c6clean).toOption = none := by decide
